import Mathlib

/-!
# Verification of the Lucid-Immersion session-scoped inference pipeline

A shallow embedding of the backend's core pipeline:

* `backend/app/utils/session.py` — `load_session_context`
* `backend/app/utils/validation.py` — `sanitize_string`
* `backend/llm.py` — `VRContextWorkflow.analyze_and_instruct`, `save_context`
* `backend/app/routes/assist.py` — the `/assist` route's post-workflow handling
* `backend/app/routes/ask.py` — the `/ask` follow-up route, including its
  numbered-list answer parser

JSON values are modelled by an inductive `Json`; on-disk session files by a
function from session id to an optional file content (absent, unparsable, or
a parsed `Json` value).  The inference provider is an oracle parameter: the
pipeline code never inspects the raw network layer, only the returned content,
so the oracle yields either a failure (a raised exception, carrying its
message) or content that is itself either unparsable as JSON or a parsed
`Json` value.  Python strings are modelled as `List Char` where character-level
behaviour (strip, truncation, regex splitting) matters, and as `String`
elsewhere; Python's `str.strip` and the regex classes `\s`/`\d` are modelled
over the ASCII whitespace/digit ranges.
-/

set_option autoImplicit false

namespace Lucid

/-! ## JSON values -/

/-- A JSON value, as produced by Python's `json.load`/`json.loads`. -/
inductive Json where
  | null
  | bool (b : Bool)
  | num (n : Int)
  | str (s : String)
  | list (xs : List Json)
  | obj (fields : List (String × Json))

/-- First-match lookup among an object's fields, the model of Python
`dict.get` / `key in dict` (Python dicts hold no duplicate keys, so
first-match agrees with dict semantics). -/
def getFieldList : List (String × Json) → String → Option Json
  | [], _ => none
  | (k', v') :: rest, k => if k' = k then some v' else getFieldList rest k

/-- Field lookup on a JSON value.  On a non-object this is `none`: the
routes only reach field access on records that passed the required-field
check, which only objects do. -/
def Json.getField : Json → String → Option Json
  | Json.obj fields, k => getFieldList fields k
  | _, _ => none

/-- Replace the value at a key, keeping its position, or append the pair at
the end — Python `dict` assignment semantics. -/
def setFieldList : List (String × Json) → String → Json → List (String × Json)
  | [], k, v => [(k, v)]
  | (k', v') :: rest, k, v =>
      if k' = k then (k, v) :: rest else (k', v') :: setFieldList rest k v

/-- Assignment `d[k] = v` on a JSON object; the identity on non-objects (never reached
on the modelled paths). -/
def Json.setField : Json → String → Json → Json
  | Json.obj fields, k, v => Json.obj (setFieldList fields k v)
  | j, _, _ => j

/-! ## Python string primitives (`str.strip`, `\s`, `\d`) -/

/-- ASCII whitespace, the characters Python's `str.strip()` and the regex
class `\s` treat as whitespace (restricted to ASCII). -/
def isPySpace (c : Char) : Bool :=
  c == ' ' || c == '\t' || c == '\n' || c == '\x0d' || c == '\x0b' || c == '\x0c'

/-- ASCII decimal digit, the regex class `\d` (restricted to ASCII). -/
def isDigitChar (c : Char) : Bool :=
  '0' ≤ c && c ≤ '9'

/-- Python `str.strip()`: drop leading and trailing whitespace. -/
def pyStrip (l : List Char) : List Char :=
  ((l.dropWhile isPySpace).reverse.dropWhile isPySpace).reverse

/-- The `sanitize_string` function from `backend/app/utils/validation.py`: empty input
maps to the empty string; otherwise remove null bytes, strip whitespace,
and truncate to 256 characters. -/
def sanitize_string (input_str : List Char) : List Char :=
  if input_str = [] then []
  else
    let sanitized := input_str.filter (fun c => !(c = '\x00'))
    let sanitized := pyStrip sanitized
    let max_length := 256
    if sanitized.length > max_length then sanitized.take max_length else sanitized

/-- The `sanitize_string` function lifted to `String`, as the routes apply it. -/
def sanitizeStr (s : String) : String :=
  String.mk (sanitize_string s.toList)

/-! ## Session context store (`backend/app/utils/session.py`) -/

/-- The content found at a session's file path: the file may be absent,
present but not valid JSON (with the decoder's message), or a parsed JSON
value. -/
inductive FileContent where
  | invalidJson (msg : String)
  | validJson (j : Json)

/-- The on-disk context directory: one optional file per session id. -/
def Store : Type := String → Option FileContent

/-- Whole-file overwrite of the record stored under `sid` — the write both
`save_context` (llm.py) and the `/ask` route perform. -/
def saveFile (sid : String) (record : Json) (store : Store) : Store :=
  fun k => if k = sid then some (FileContent.validJson record) else store k

/-- The fields `load_session_context` requires. -/
def requiredFields : List String :=
  ["session_id", "task", "step", "image_analysis", "instruction"]

/-- Whether Python's `field in context_data` is defined for this record
type: dicts, lists and strings are iterable (membership tests succeed);
on every other type `in` raises `TypeError`. -/
def isIterable : Json → Bool
  | Json.obj _ => true
  | Json.list _ => true
  | Json.str _ => true
  | _ => false

/-- Whether `pat` is a prefix of `l`. -/
def isPrefixOfChars : List Char → List Char → Bool
  | [], _ => true
  | _ :: _, [] => false
  | a :: pat, b :: l => a == b && isPrefixOfChars pat l

/-- Whether `pat` occurs as a contiguous substring of `l` — Python's
`pat in s` on strings. -/
def isSubstringChars (pat : List Char) : List Char → Bool
  | [] => isPrefixOfChars pat []
  | b :: l => isPrefixOfChars pat (b :: l) || isSubstringChars pat l

/-- Python's `f in context_data` on an iterable record: key membership on a
dict, element membership on a list (a JSON element equals the string `f`
exactly when it is that string — Python `==` between a `str` and any
non-`str` JSON value is `False`), substring containment on a string.  On
non-iterables Python raises `TypeError` instead; `load_session_context`
branches on `isIterable` first and never reads this value there. -/
def jsonContains (j : Json) (f : String) : Bool :=
  match j with
  | Json.obj fields => (getFieldList fields f).isSome
  | Json.list xs => xs.any (fun x =>
      match x with
      | Json.str s => s == f
      | _ => false)
  | Json.str s => isSubstringChars f.toList s.toList
  | _ => false

/-- Boolean required-field check, with Python's membership semantics: the
record is iterable and every required field tests present under `in`.
(On a JSON object this is exactly key presence; a JSON array containing
the five field names, or a string containing them as substrings, also
passes — as it does in the program.) -/
def hasRequiredFields (j : Json) : Bool :=
  isIterable j && requiredFields.all (fun f => jsonContains j f)

/-- The single error type of `load_session_context`: every failure is a
Python `ValueError` carrying a message (the spec's `Corrupt`). -/
inductive LoadError where
  | corrupt (msg : String)

/-- The message of the missing-required-fields `ValueError`, after the
generic `except Exception` handler re-wraps it. -/
def missingFieldsMsg (missing : List String) : String :=
  "Error loading session context: Session context missing required fields: "
    ++ String.intercalate ", " missing

/-- The `load_session_context` function from `backend/app/utils/session.py`:
`Except.ok none` models the `None` return for a missing file; `Except.error
(.corrupt msg)` models the raised `ValueError`.  The required-field check is
Python's `field not in context_data`, i.e. `jsonContains` on iterable
records; on a non-iterable record (number, boolean, null) the first `in`
test raises `TypeError`, which the generic `except Exception` handler
re-wraps as a `ValueError` (the Python message embeds the runtime type name,
abstracted here). -/
def load_session_context (session_id : String) (store : Store) :
    Except LoadError (Option Json) :=
  match store session_id with
  | none => Except.ok none
  | some (FileContent.invalidJson msg) =>
      Except.error (LoadError.corrupt ("Invalid JSON in session file: " ++ msg))
  | some (FileContent.validJson context_data) =>
      if isIterable context_data then
        let missing := requiredFields.filter
          (fun f => !jsonContains context_data f)
        if missing.isEmpty then Except.ok (some context_data)
        else Except.error (LoadError.corrupt (missingFieldsMsg missing))
      else
        Except.error (LoadError.corrupt
          "Error loading session context: argument is not iterable")

/-! ## The `/ask` numbered-list answer parser (`backend/app/routes/ask.py`)

The route splits the model's answer with `re.split(r'\n\s*\d+\.\s+', text)`.
The pattern is deterministic (whitespace and digits are disjoint character
classes, so greedy matching never backtracks): a match is a literal newline,
a maximal possibly-empty whitespace run, a maximal non-empty digit run, a
literal period, and a maximal non-empty whitespace run. -/

/-- Try to match `\n\s*\d+\.\s+` at the head of `l`; on success return the
remainder of the input after the match. -/
def matchNumbered (l : List Char) : Option (List Char) :=
  match l with
  | '\n' :: rest =>
      let rest1 := rest.dropWhile isPySpace
      let digits := rest1.takeWhile isDigitChar
      let rest2 := rest1.dropWhile isDigitChar
      if digits.isEmpty then none
      else
        match rest2 with
        | '.' :: rest3 =>
            if (rest3.takeWhile isPySpace).isEmpty then none
            else some (rest3.dropWhile isPySpace)
        | _ => none
  | _ => none

theorem length_matchNumbered {l rest : List Char}
    (h : matchNumbered l = some rest) : rest.length < l.length := by
  match l with
  | [] => simp [matchNumbered] at h
  | c :: l' =>
    by_cases hc : c = '\n'
    · subst hc
      simp only [matchNumbered] at h
      split at h
      · exact absurd h (by simp)
      · split at h
        · split at h
          · exact absurd h (by simp)
          · simp only [Option.some.injEq] at h
            subst h
            calc (List.dropWhile isPySpace _).length
                ≤ _ := (List.dropWhile_suffix _).length_le
              _ ≤ (List.dropWhile isDigitChar (List.dropWhile isPySpace l')).length :=
                  by
                    rename_i heq _
                    rw [heq]
                    simp
              _ ≤ (List.dropWhile isPySpace l').length :=
                  (List.dropWhile_suffix _).length_le
              _ ≤ l'.length := (List.dropWhile_suffix _).length_le
              _ < ('\n' :: l').length := by simp
        · exact absurd h (by simp)
    · rw [show matchNumbered (c :: l') = none by
        unfold matchNumbered
        split
        · rename_i heq
          exact absurd (List.cons.inj heq).1 hc
        · rfl] at h
      exact absurd h (by simp)

/-- The `re.split` scan with the numbered-list pattern: scan left to right; at each
position whose suffix matches, emit the accumulated fragment and resume
after the match; otherwise advance one character.  The `fuel` argument only
makes the recursion structural; any `fuel > l.length` gives the scan's
value (each step consumes at least one character). -/
def splitNumberedAux (fuel : Nat) (l : List Char) (acc : List Char) :
    List (List Char) :=
  match fuel with
  | 0 => [acc]
  | fuel + 1 =>
    match matchNumbered l with
    | some rest => acc :: splitNumberedAux fuel rest []
    | none =>
      match l with
      | [] => [acc]
      | c :: rest => splitNumberedAux fuel rest (acc ++ [c])

/-- Python `re.split(r'\n\s*\d+\.\s+', text)`. -/
def splitNumbered (l : List Char) : List (List Char) :=
  splitNumberedAux (l.length + 1) l []

/-- The `/ask` route's answer parsing (ask.py, step 7): split on the
numbered-list pattern, drop an empty-after-strip leading fragment, strip
each fragment, keep the non-empty ones; if nothing remains, the whole
stripped answer is the single step. -/
def parseAnswerSteps (answer_text : List Char) : List (List Char) :=
  let steps := splitNumbered answer_text
  let steps :=
    match steps with
    | [] => []
    | s0 :: rest => if (pyStrip s0).isEmpty then rest else s0 :: rest
  let answer_steps := (steps.map pyStrip).filter (fun s => !s.isEmpty)
  if answer_steps.isEmpty then [pyStrip answer_text] else answer_steps

/-! ## `VRContextWorkflow` (`backend/llm.py`) -/

/-- The pipeline state threaded through the LangGraph nodes (`VRContextState`).
Fields the code reads with `state.get(key, default)` are `Option`s; `none`
models an absent key.  Fields filled from parsed model JSON are `Json`
(Python places arbitrary decoded values there); `instruction_text` holds
either a string (error paths) or a list (parsed steps), both `Json`. -/
structure VRState where
  current_image : Option String := none
  task_step : Option String := none
  current_task : Option String := none
  gaze_vector : Option Json := none
  session_id : Option String := none
  image_analysis : Option Json := none
  instruction_text : Option Json := none
  target_id : Option Json := none
  haptic_cue : Option Json := none
  context_history : List Json := []
  error : Option String := none

/-- What one `self.llm.invoke` attempt produces, seen from the pipeline:
either a raised exception with its message, or response content.  Content is
modelled after fence extraction as either undecodable JSON (raises
`json.JSONDecodeError`) or a decoded `Json` value. -/
inductive LLMResult where
  | ok (content : Except String Json)
  | fail (msg : String)

/-- An inference oracle: the outcome of the n-th invocation attempt. -/
def LLMOracle : Type := Nat → LLMResult

/-- The retry loop in `analyze_and_instruct` (`max_retries = 2`): take the
first attempt's response; on exception, the second attempt's outcome stands
(its exception is re-raised). -/
def invokeWithRetry (llm : LLMOracle) : LLMResult :=
  match llm 0 with
  | LLMResult.ok c => LLMResult.ok c
  | LLMResult.fail _ => llm 1

/-- The hard-coded fallback `result` dict used when JSON decoding of the
response fails (note the `step_text` key: the dict has no `instruction`
key, so the flat-structure fallback branch handles it downstream). -/
def fallbackResult : Json :=
  Json.obj
    [("image_analysis", Json.str "Error parsing analysis"),
     ("step_text", Json.str "Unable to process image. Please try again."),
     ("target_id", Json.str ""),
     ("haptic_cue", Json.str "none")]

/-- The three permitted haptic cues (`valid_cues` in llm.py). -/
def valid_cues : List String := ["guide_to_target", "success_pulse", "none"]

/-- Coercion `if state["haptic_cue"] not in valid_cues: state["haptic_cue"] = "none"`:
a non-string JSON value is unequal to every string in the list, so it is
coerced as well. -/
def coerceCue (j : Json) : Json :=
  match j with
  | Json.str s => if s ∈ valid_cues then Json.str s else Json.str "none"
  | _ => Json.str "none"

/-- Python `[text] if isinstance(text, str) else ["No instruction available"]`. -/
def textToSteps (text : Json) : Json :=
  match text with
  | Json.str s => Json.list [Json.str s]
  | _ => Json.list [Json.str "No instruction available"]

/-- Lines 322–349 of llm.py: fill the state from the decoded `result`
object — nested `instruction` object when it is a dict, flat fields
otherwise — then coerce the haptic cue. -/
def setFromResult (state : VRState) (result : Json) : VRState :=
  let image_analysis := (result.getField "image_analysis").getD
    (Json.str "No analysis available")
  let instruction := (result.getField "instruction").getD (Json.obj [])
  match instruction with
  | Json.obj fields =>
      let steps := (getFieldList fields "steps").getD (Json.list [])
      let instruction_text :=
        match steps with
        | Json.list xs =>
            if xs.length > 0 then Json.list xs
            else textToSteps ((getFieldList fields "text").getD
              (Json.str "No instruction available"))
        | _ => textToSteps ((getFieldList fields "text").getD
            (Json.str "No instruction available"))
      { state with
        image_analysis := some image_analysis
        instruction_text := some instruction_text
        target_id := some ((getFieldList fields "target_id").getD (Json.str ""))
        haptic_cue := some (coerceCue ((getFieldList fields "haptic_cue").getD
          (Json.str "none"))) }
  | _ =>
      { state with
        image_analysis := some image_analysis
        instruction_text := some (textToSteps ((result.getField "instruction_text").getD
          (Json.str "No instruction available")))
        target_id := some ((result.getField "target_id").getD (Json.str ""))
        haptic_cue := some (coerceCue ((result.getField "haptic_cue").getD
          (Json.str "none"))) }

/-- The `VRContextWorkflow.analyze_and_instruct` node: skip when an error is already
recorded; fail-fast when no image; invoke the model with one retry — a
second exception is re-raised and lands in the outer handler, which records
the error and the fixed fallback fields; otherwise decode (with the
`fallbackResult` dict on decode failure) and fill the state. -/
def analyze_and_instruct (llm : LLMOracle) (state : VRState) : VRState :=
  if state.error.isSome then state
  else
    match state.current_image with
    | none =>
        { state with
          error := some "No image data provided"
          image_analysis := some (Json.str "Error: No image data")
          instruction_text := some (Json.str "Error: No image to analyze")
          target_id := some (Json.str "")
          haptic_cue := some (Json.str "none") }
    | some _ =>
        match invokeWithRetry llm with
        | LLMResult.fail msg =>
            { state with
              error := some ("Analysis and instruction failed: " ++ msg)
              image_analysis := some (Json.str ("Error: " ++ msg))
              instruction_text := some (Json.str "System error. Please try again.")
              target_id := some (Json.str "")
              haptic_cue := some (Json.str "none") }
        | LLMResult.ok content =>
            let result :=
              match content with
              | Except.error _ => fallbackResult
              | Except.ok j => j
            setFromResult state result

/-- The record `save_context` writes (`context_data` in llm.py, lines
94–107).  Note it carries no `follow_up_qa` field, and `error` is JSON
`null` on the success path. -/
def mkContextData (state : VRState) (timestamp : String) : Json :=
  let instruction_text :=
    match (state.instruction_text).getD (Json.list []) with
    | Json.str s => Json.list [Json.str s]
    | j => j
  Json.obj
    [("session_id", Json.str (state.session_id.getD "unknown")),
     ("timestamp", Json.str timestamp),
     ("task", Json.str (state.current_task.getD "")),
     ("step", Json.str (state.task_step.getD "unknown")),
     ("gaze_vector", (state.gaze_vector).getD (Json.obj [])),
     ("image_analysis", (state.image_analysis).getD (Json.str "")),
     ("instruction", Json.obj
       [("steps", instruction_text),
        ("target_id", (state.target_id).getD (Json.str "")),
        ("haptic_cue", (state.haptic_cue).getD (Json.str "none"))]),
     ("error", Json.null)]

/-- The in-memory `context_entry` appended to `context_history`. -/
def mkContextEntry (state : VRState) (timestamp : String) : Json :=
  Json.obj
    [("timestamp", Json.str timestamp),
     ("task", Json.str (state.current_task.getD "")),
     ("step", Json.str (state.task_step.getD "unknown")),
     ("image_analysis", (state.image_analysis).getD (Json.str "")),
     ("step_text", (state.instruction_text).getD (Json.str ""))]

/-- The `VRContextWorkflow.save_context` node: skip entirely when an error is
recorded; otherwise overwrite `contexts/<session_id>.json` with the fresh
`context_data` record and append to the trimmed in-memory history. -/
def save_context (max_context_history : Nat) (state : VRState)
    (timestamp : String) (store : Store) : VRState × Store :=
  if state.error.isSome then (state, store)
  else
    let session_id := state.session_id.getD "unknown"
    let store := saveFile session_id (mkContextData state timestamp) store
    let history := state.context_history ++ [mkContextEntry state timestamp]
    let history :=
      if history.length > max_context_history then
        history.drop (history.length - max_context_history)
      else history
    ({ state with context_history := history }, store)

/-- The channel filter of `StateGraph(VRContextState)` in llm.py: the local
`VRContextState` TypedDict declares the channels `current_image`,
`task_step`, `current_task`, `gaze_vector`, `session_id`, `image_analysis`,
`instruction_text`, `target_id`, `haptic_cue`, `context_history` and
`messages` — and no `error` key.  LangGraph keeps only declared channels, so
an `error` entry written by a node is dropped at the node boundary and is
absent from the invoke result. -/
def dropUndeclared (state : VRState) : VRState :=
  { state with error := none }

/-- The `VRContextWorkflow.run` entry point: the compiled graph is the chain
`analyze_and_instruct → save_context → END`, with each node's output
filtered to the declared `VRContextState` channels before the next node and
before being returned — in particular the `error` key never crosses a node
boundary. -/
def workflowRun (llm : LLMOracle) (max_context_history : Nat)
    (timestamp : String) (init : VRState) (store : Store) : VRState × Store :=
  let s1 := dropUndeclared (analyze_and_instruct llm (dropUndeclared init))
  let result := save_context max_context_history s1 timestamp store
  (dropUndeclared result.1, result.2)

/-! ## The `/assist` route's post-workflow handling (`assist.py`) -/

/-- What the `/assist` route hands back to the HTTP layer once the workflow
returned: a success payload, or (when the result carries an `error`, or any
exception reached the generic handler) a 500 error body with code
`LLM_ERROR`. -/
inductive AssistOutcome where
  | success (session_id : String) (instruction_steps : Json)
      (target_id : Json) (haptic_cue : Json)
  | errorResponse (error : String) (error_code : String)

/-- Steps 10–11 of the `/assist` route: re-raise the workflow's recorded
error into the 500 handler, else normalize `instruction_text` to a list and
build the success payload. -/
def assistRouteOutcome (session_id : String) (result : VRState) : AssistOutcome :=
  match result.error with
  | some e => AssistOutcome.errorResponse e "LLM_ERROR"
  | none =>
      let instruction_text := (result.instruction_text).getD (Json.list [])
      let instruction_text :=
        match instruction_text with
        | Json.str s => Json.list [Json.str s]
        | j => j
      AssistOutcome.success session_id instruction_text
        ((result.target_id).getD (Json.str ""))
        ((result.haptic_cue).getD (Json.str "none"))

/-! ## The `/ask` follow-up pipeline (`ask.py`) -/

/-- The follow-up entry appended to `follow_up_qa` (ask.py, step 8). -/
def mkQaEntry (timestamp : String) (question : String)
    (answer_steps : List (List Char)) : Json :=
  Json.obj
    [("timestamp", Json.str timestamp),
     ("question", Json.str question),
     ("answer_steps", Json.list (answer_steps.map (fun s => Json.str (String.mk s))))]

/-- Step 8 of the `/ask` route: default `follow_up_qa` to `[]` when the key
is absent, then append the entry.  `none` models the `AttributeError` Python
raises when the stored value is not a list (caught by the route's generic
handler). -/
def appendFollowUp (session_context : Json) (entry : Json) : Option Json :=
  match session_context.getField "follow_up_qa" with
  | none => some (session_context.setField "follow_up_qa" (Json.list [entry]))
  | some (Json.list xs) =>
      some (session_context.setField "follow_up_qa" (Json.list (xs ++ [entry])))
  | some _ => none

/-- Failures the `/ask` route surfaces after input validation: the 404
`NotFound` for an unknown session, and the generic 500 `LLM_ERROR` handler
(which absorbs load `ValueError`s, inference exceptions, and append
failures). -/
inductive AskError where
  | notFound (session_id : String)
  | llmError (msg : String)

/-- The success body of the `/ask` route (the fields the claims concern). -/
structure AskResponse where
  session_id : String
  answer_steps : List (List Char)
  task : Json
  step : Json

/-- The `/ask` route from input sanitization onward (steps 4–9): sanitize,
load the session (absent → 404, corrupt → 500), invoke the text-only model
once (no retry; an exception → 500), parse the answer into steps, append
the Q&A entry and overwrite the context file, and build the response.  The
resulting store is returned alongside; every failure path leaves the store
untouched. -/
def askRoute (store : Store) (session_id0 question0 : String)
    (timestamp : String) (llm : Except String (List Char)) :
    Except AskError AskResponse × Store :=
  let session_id := sanitizeStr session_id0
  let question := sanitizeStr question0
  match load_session_context session_id store with
  | Except.error (LoadError.corrupt msg) =>
      (Except.error (AskError.llmError msg), store)
  | Except.ok none =>
      (Except.error (AskError.notFound session_id), store)
  | Except.ok (some session_context) =>
      match llm with
      | Except.error msg => (Except.error (AskError.llmError msg), store)
      | Except.ok answer_text =>
          let answer_steps := parseAnswerSteps answer_text
          let entry := mkQaEntry timestamp question answer_steps
          match appendFollowUp session_context entry with
          | none =>
              (Except.error (AskError.llmError "follow_up_qa is not a list"), store)
          | some updated =>
              (Except.ok
                { session_id := session_id
                  answer_steps := answer_steps
                  task := (session_context.getField "task").getD
                    (Json.str "Unknown task")
                  step := (session_context.getField "step").getD
                    (Json.str "Unknown step") },
               saveFile session_id updated store)

/-! ## A generator for valid numbered-list texts

Used only to state parser properties: `numberedText [s₁, …, sₙ]` is the text
`"\n1. s₁\n2. s₂…\nn. sₙ"`, every item preceded by a line boundary as the
spec's splitting rule describes. -/

/-- The decimal digit character for `n % 10`-style values. -/
def digitChar10 : Nat → Char
  | 0 => '0' | 1 => '1' | 2 => '2' | 3 => '3' | 4 => '4'
  | 5 => '5' | 6 => '6' | 7 => '7' | 8 => '8' | _ => '9'

/-- Decimal rendering of a natural number as characters (structural on a
fuel bound; `fuel ≥ n` always suffices and every fuel yields digit
characters only). -/
def natToDigitsAux : Nat → Nat → List Char
  | 0, n => [digitChar10 n]
  | fuel + 1, n =>
      if n < 10 then [digitChar10 n]
      else natToDigitsAux fuel (n / 10) ++ [digitChar10 (n % 10)]

/-- Decimal rendering of a natural number as characters. -/
def natToDigits (n : Nat) : List Char :=
  natToDigitsAux n n

/-- Renders `"\n<i>. <s₁>\n<i+1>. <s₂>…"`. -/
def numberedFrom (i : Nat) : List (List Char) → List Char
  | [] => []
  | s :: rest =>
      '\n' :: (natToDigits i ++ '.' :: ' ' :: (s ++ numberedFrom (i + 1) rest))

/-- A numbered list of the given step texts, numbered from 1, each item
introduced at a line boundary. -/
def numberedText (steps : List (List Char)) : List Char :=
  numberedFrom 1 steps

/-- A step text that splits cleanly: non-empty, no surrounding whitespace,
and no embedded newline (so no split point can occur inside it). -/
def goodStep (s : List Char) : Prop :=
  s ≠ [] ∧ pyStrip s = s ∧ '\n' ∉ s

/-! ## Helper lemmas: field lookup, store, load -/

theorem getFieldList_setFieldList_self (fields : List (String × Json))
    (k : String) (v : Json) :
    getFieldList (setFieldList fields k v) k = some v := by
  induction fields with
  | nil => simp [setFieldList, getFieldList]
  | cons p rest ih =>
    obtain ⟨k', v'⟩ := p
    by_cases hk : k' = k
    · simp [setFieldList, hk, getFieldList]
    · simp [setFieldList, hk, getFieldList, ih]

theorem getFieldList_setFieldList_ne (fields : List (String × Json))
    (k k' : String) (v : Json) (h : k' ≠ k) :
    getFieldList (setFieldList fields k v) k' = getFieldList fields k' := by
  induction fields with
  | nil => simp [setFieldList, getFieldList, Ne.symm h]
  | cons p rest ih =>
    obtain ⟨k₀, v₀⟩ := p
    by_cases hk : k₀ = k
    · subst hk
      simp [setFieldList, getFieldList, Ne.symm h]
    · simp only [setFieldList, hk, if_false, getFieldList]
      by_cases hk' : k₀ = k'
      · simp [hk']
      · simp [hk', ih]

theorem getField_setField_self (fields : List (String × Json)) (k : String)
    (v : Json) :
    ((Json.obj fields).setField k v).getField k = some v := by
  simp [Json.setField, Json.getField, getFieldList_setFieldList_self]

theorem getField_setField_ne (fields : List (String × Json)) (k k' : String)
    (v : Json) (h : k' ≠ k) :
    ((Json.obj fields).setField k v).getField k' = (Json.obj fields).getField k' := by
  simp [Json.setField, Json.getField, getFieldList_setFieldList_ne _ _ _ _ h]

/-- A value with a present field is an object. -/
theorem obj_of_getField_isSome {j : Json} {f : String}
    (h : (j.getField f).isSome = true) : ∃ fields, j = Json.obj fields := by
  cases j with
  | obj fields => exact ⟨fields, rfl⟩
  | null => simp [Json.getField] at h
  | bool b => simp [Json.getField] at h
  | num n => simp [Json.getField] at h
  | str s => simp [Json.getField] at h
  | list xs => simp [Json.getField] at h

theorem saveFile_self (sid : String) (record : Json) (store : Store) :
    saveFile sid record store sid = some (FileContent.validJson record) := by
  simp [saveFile]

/-- A record passing the required-field check is iterable. -/
theorem isIterable_of_hasRequiredFields {j : Json}
    (h : hasRequiredFields j = true) : isIterable j = true := by
  unfold hasRequiredFields at h
  rw [Bool.and_eq_true] at h
  exact h.1

/-- A record passing the required-field check has every required field
testing present. -/
theorem requiredAll_of_hasRequiredFields {j : Json}
    (h : hasRequiredFields j = true) :
    ∀ f ∈ requiredFields, jsonContains j f = true := by
  unfold hasRequiredFields at h
  rw [Bool.and_eq_true] at h
  exact List.all_eq_true.mp h.2

/-- With every required field testing present, the missing-field filter is
empty. -/
theorem requiredFilter_eq_nil {j : Json} (h : hasRequiredFields j = true) :
    requiredFields.filter (fun f => !jsonContains j f) = [] := by
  rw [List.filter_eq_nil_iff]
  intro f hf
  have hs := requiredAll_of_hasRequiredFields h f hf
  simp [hs]

/-- Loading a stored record on which every required field tests present
succeeds with that record. -/
theorem load_of_valid {sid : String} {store : Store} {j : Json}
    (hst : store sid = some (FileContent.validJson j))
    (hreq : hasRequiredFields j = true) :
    load_session_context sid store = Except.ok (some j) := by
  unfold load_session_context
  rw [hst]
  simp [isIterable_of_hasRequiredFields hreq, requiredFilter_eq_nil hreq]

/-- Loading a stored iterable record on which a required field tests absent
raises the corrupt `ValueError`. -/
theorem load_of_missing {sid : String} {store : Store} {j : Json} {f : String}
    (hst : store sid = some (FileContent.validJson j))
    (hit : isIterable j = true)
    (hf : f ∈ requiredFields) (hnone : jsonContains j f = false) :
    ∃ m, load_session_context sid store = Except.error (LoadError.corrupt m) := by
  have hmem : f ∈ requiredFields.filter (fun f => !jsonContains j f) :=
    List.mem_filter.mpr ⟨hf, by simp [hnone]⟩
  have hne : requiredFields.filter (fun f => !jsonContains j f) ≠ [] :=
    List.ne_nil_of_mem hmem
  refine ⟨missingFieldsMsg (requiredFields.filter (fun f => !jsonContains j f)), ?_⟩
  unfold load_session_context
  rw [hst]
  simp only [hit, List.isEmpty_iff, hne, if_false, if_true]

/-- Loading a stored non-iterable record (number, boolean, null) raises the
corrupt `ValueError`: Python's membership test itself raises `TypeError`,
re-wrapped by the generic handler. -/
theorem load_of_noniterable {sid : String} {store : Store} {j : Json}
    (hst : store sid = some (FileContent.validJson j))
    (hit : isIterable j = false) :
    ∃ m, load_session_context sid store = Except.error (LoadError.corrupt m) := by
  refine ⟨"Error loading session context: argument is not iterable", ?_⟩
  unfold load_session_context
  rw [hst]
  simp only [hit, Bool.false_eq_true, if_false]

/-- Save-then-load round trip at the store level. -/
theorem load_after_save (sid : String) (record : Json) (store : Store)
    (h : hasRequiredFields record = true) :
    load_session_context sid (saveFile sid record store) = Except.ok (some record) :=
  load_of_valid (saveFile_self sid record store) h

/-! ## C4 — load error behaviour -/

/-- C4: `load_session_context` returns the missing-record result (`None`,
modelled `Except.ok none`) when no stored file exists; raises the corrupt
`ValueError` when the stored bytes are not valid JSON, when the parsed
record is iterable but Python's membership test deems a required field
(`session_id`, `task`, `step`, `image_analysis`, `instruction`) absent, and
when the record is not iterable (the membership test itself raises
`TypeError`, re-wrapped as `ValueError`); and returns the record whenever
every required field tests present under the program's `in` check — which
on a JSON object is key presence, and on a JSON array or string is
element/substring membership. -/
theorem load_session_context_spec (sid : String) (store : Store) :
    (store sid = none → load_session_context sid store = Except.ok none)
    ∧ (∀ msg, store sid = some (FileContent.invalidJson msg) →
        ∃ m, load_session_context sid store = Except.error (LoadError.corrupt m))
    ∧ (∀ j, store sid = some (FileContent.validJson j) →
        hasRequiredFields j = true →
        load_session_context sid store = Except.ok (some j))
    ∧ (∀ j f, store sid = some (FileContent.validJson j) →
        isIterable j = true → f ∈ requiredFields → jsonContains j f = false →
        ∃ m, load_session_context sid store = Except.error (LoadError.corrupt m))
    ∧ (∀ j, store sid = some (FileContent.validJson j) → isIterable j = false →
        ∃ m, load_session_context sid store
          = Except.error (LoadError.corrupt m)) := by
  refine ⟨?_, ?_, ?_, ?_, ?_⟩
  · intro h
    unfold load_session_context
    rw [h]
  · intro msg h
    unfold load_session_context
    rw [h]
    exact ⟨_, rfl⟩
  · intro j h hreq
    exact load_of_valid h hreq
  · intro j f h hit hf hnone
    exact load_of_missing h hit hf hnone
  · intro j h hit
    exact load_of_noniterable h hit

/-- A complete record, for the C4 witness. -/
def recC4 : Json :=
  Json.obj
    [("session_id", Json.str "s-good"),
     ("task", Json.str "PSU_Install"),
     ("step", Json.str "4"),
     ("image_analysis", Json.str "analysis"),
     ("instruction", Json.obj
       [("steps", Json.list [Json.str "Locate the cable"]),
        ("target_id", Json.str "J1"),
        ("haptic_cue", Json.str "guide_to_target")])]

/-- A record missing the required `task` field, for the C4 witness. -/
def recC4missing : Json :=
  Json.obj [("session_id", Json.str "s-missing")]

/-- A JSON-array record whose elements are the five field names: Python's
`field in context_data` is element membership here, so the program loads it
successfully. -/
def recC4array : Json :=
  Json.list [Json.str "session_id", Json.str "task", Json.str "step",
             Json.str "image_analysis", Json.str "instruction"]

/-- A non-iterable record: `field in 42` raises `TypeError`. -/
def recC4num : Json := Json.num 42

/-- A store exercising every branch of C4. -/
def storeC4 : Store := fun k =>
  if k = "s-missing" then some (FileContent.validJson recC4missing)
  else if k = "s-bad" then some (FileContent.invalidJson "Expecting value")
  else if k = "s-good" then some (FileContent.validJson recC4)
  else if k = "s-arr" then some (FileContent.validJson recC4array)
  else if k = "s-num" then some (FileContent.validJson recC4num)
  else none

theorem load_session_context_spec_witness :
    load_session_context "s-absent" storeC4 = Except.ok none
    ∧ (∃ m, load_session_context "s-bad" storeC4
        = Except.error (LoadError.corrupt m))
    ∧ load_session_context "s-good" storeC4 = Except.ok (some recC4)
    ∧ load_session_context "s-arr" storeC4 = Except.ok (some recC4array)
    ∧ (∃ m, load_session_context "s-missing" storeC4
        = Except.error (LoadError.corrupt m))
    ∧ ∃ m, load_session_context "s-num" storeC4
        = Except.error (LoadError.corrupt m) :=
  ⟨(load_session_context_spec "s-absent" storeC4).1 rfl,
   (load_session_context_spec "s-bad" storeC4).2.1 "Expecting value" rfl,
   (load_session_context_spec "s-good" storeC4).2.2.1 recC4 rfl rfl,
   (load_session_context_spec "s-arr" storeC4).2.2.1 recC4array rfl rfl,
   (load_session_context_spec "s-missing" storeC4).2.2.2.1 recC4missing "task"
     rfl rfl (by simp [requiredFields]) rfl,
   (load_session_context_spec "s-num" storeC4).2.2.2.2 recC4num rfl rfl⟩

/-! ## C5 — save/load round trip -/

/-- Accessor for `record["instruction"]["steps"]` when present. -/
def instructionSteps (j : Json) : Option Json :=
  (j.getField "instruction").bind (fun i => i.getField "steps")

/-- C5: saving a record and immediately loading it by the same session id
returns a record whose `task`, `step`, `instruction.steps` and
`follow_up_qa` contents are identical to the saved record's.  (Both writers
— `save_context` and the `/ask` route — store records carrying all required
fields, the hypothesis here.) -/
theorem save_load_roundtrip (sid : String) (record : Json) (store : Store)
    (h : hasRequiredFields record = true) :
    ∃ r, load_session_context sid (saveFile sid record store) = Except.ok (some r)
      ∧ r.getField "task" = record.getField "task"
      ∧ r.getField "step" = record.getField "step"
      ∧ instructionSteps r = instructionSteps record
      ∧ r.getField "follow_up_qa" = record.getField "follow_up_qa" :=
  ⟨record, load_after_save sid record store h, rfl, rfl, rfl, rfl⟩

/-- A complete record with follow-up history, for the C5 witness. -/
def recC5 : Json :=
  Json.obj
    [("session_id", Json.str "s-rt"),
     ("task", Json.str "PSU_Install"),
     ("step", Json.str "4"),
     ("image_analysis", Json.str "analysis"),
     ("instruction", Json.obj
       [("steps", Json.list [Json.str "Locate the cable", Json.str "Insert it"]),
        ("target_id", Json.str "J1"),
        ("haptic_cue", Json.str "guide_to_target")]),
     ("follow_up_qa", Json.list
       [Json.obj [("timestamp", Json.str "t1"),
                  ("question", Json.str "why?"),
                  ("answer_steps", Json.list [Json.str "Because."])]])]

theorem save_load_roundtrip_witness :
    ∃ r, load_session_context "s-rt" (saveFile "s-rt" recC5 (fun _ => none))
          = Except.ok (some r)
      ∧ r.getField "task" = recC5.getField "task"
      ∧ r.getField "step" = recC5.getField "step"
      ∧ instructionSteps r = instructionSteps recC5
      ∧ r.getField "follow_up_qa" = recC5.getField "follow_up_qa" :=
  save_load_roundtrip "s-rt" recC5 (fun _ => none) rfl

/-! ## C6 — no session-id/file-key consistency check on load

The claim says a record whose stored `session_id` differs from the file key
fails a consistency check on load.  `load_session_context` performs no such
comparison: it validates only the presence of the required fields. -/

/-- A record whose `session_id` differs from the key it is stored under. -/
def recC6 : Json :=
  Json.obj
    [("session_id", Json.str "other-session"),
     ("task", Json.str "GPU_Install"),
     ("step", Json.str "1"),
     ("image_analysis", Json.str ""),
     ("instruction", Json.obj [("steps", Json.list [Json.str "Do it"])])]

/-- A store holding `recC6` under the unrelated key `mykey`. -/
def storeC6 : Store := fun k =>
  if k = "mykey" then some (FileContent.validJson recC6) else none

/-- C6 counterexample: a record stored under key `mykey` whose `session_id`
field is `other-session` loads successfully — no consistency check fires. -/
theorem load_no_session_id_check_counterexample :
    recC6.getField "session_id" = some (Json.str "other-session")
    ∧ ("other-session" : String) ≠ "mykey"
    ∧ load_session_context "mykey" storeC6 = Except.ok (some recC6) :=
  ⟨rfl, by decide, rfl⟩

/-- C6 (amended): on load only presence of the required fields is checked;
the record's `session_id` is never compared with the file key, so a record
whose stored `session_id` differs from the key used to load it still loads
successfully. -/
theorem load_ignores_session_id_mismatch (sid : String) (store : Store)
    (j : Json) (hst : store sid = some (FileContent.validJson j))
    (hreq : hasRequiredFields j = true)
    (hne : j.getField "session_id" ≠ some (Json.str sid)) :
    load_session_context sid store = Except.ok (some j) :=
  load_of_valid hst hreq

theorem load_ignores_session_id_mismatch_witness :
    load_session_context "mykey2" (fun k =>
      if k = "mykey2" then some (FileContent.validJson recC6) else none)
      = Except.ok (some recC6) :=
  load_ignores_session_id_mismatch "mykey2" _ recC6 rfl rfl
    (by simp [recC6, Json.getField, getFieldList])

/-! ## C9 — follow-up against a missing session -/

/-- C9: a follow-up whose (sanitized) session id has no stored record fails
with the not-found domain error, and the store is left unchanged. -/
theorem ask_session_not_found (store : Store) (sid question ts : String)
    (llm : Except String (List Char))
    (h : store (sanitizeStr sid) = none) :
    askRoute store sid question ts llm
      = (Except.error (AskError.notFound (sanitizeStr sid)), store) := by
  unfold askRoute
  have hload : load_session_context (sanitizeStr sid) store = Except.ok none := by
    unfold load_session_context
    rw [h]
  simp only [hload]

theorem ask_session_not_found_witness :
    askRoute (fun _ => none) "sess-9" "what next?" "t0"
        (Except.ok ("1. Step".toList))
      = (Except.error (AskError.notFound (sanitizeStr "sess-9")), fun _ => none) :=
  ask_session_not_found (fun _ => none) "sess-9" "what next?" "t0"
    (Except.ok ("1. Step".toList)) rfl

/-! ## C7 — haptic cue is always one of the three enumerated values -/

/-- Membership in the enumerated haptic-cue set, as a JSON value. -/
def isValidCue (j : Json) : Prop :=
  j = Json.str "guide_to_target" ∨ j = Json.str "success_pulse" ∨ j = Json.str "none"

/-- Accessor for `record["instruction"]["haptic_cue"]` when present. -/
def instructionHapticCue (j : Json) : Option Json :=
  (j.getField "instruction").bind (fun i => i.getField "haptic_cue")

theorem coerceCue_valid (j : Json) : isValidCue (coerceCue j) := by
  cases j with
  | str s =>
    show isValidCue (if s ∈ valid_cues then Json.str s else Json.str "none")
    by_cases hmem : s ∈ valid_cues
    · rw [if_pos hmem]
      simp only [valid_cues, List.mem_cons, List.mem_singleton] at hmem
      rcases hmem with rfl | rfl | hmem
      · exact Or.inl rfl
      · exact Or.inr (Or.inl rfl)
      · rcases hmem with rfl | h
        · exact Or.inr (Or.inr rfl)
        · simp at h
    · rw [if_neg hmem]
      exact Or.inr (Or.inr rfl)
  | null => exact Or.inr (Or.inr rfl)
  | bool b => exact Or.inr (Or.inr rfl)
  | num n => exact Or.inr (Or.inr rfl)
  | list xs => exact Or.inr (Or.inr rfl)
  | obj fields => exact Or.inr (Or.inr rfl)

theorem setFromResult_haptic (state : VRState) (result : Json) :
    ∃ v, (setFromResult state result).haptic_cue = some v ∧ isValidCue v := by
  unfold setFromResult
  cases hinstr : (result.getField "instruction").getD (Json.obj []) with
  | obj fields => exact ⟨_, rfl, coerceCue_valid _⟩
  | null => exact ⟨_, rfl, coerceCue_valid _⟩
  | bool b => exact ⟨_, rfl, coerceCue_valid _⟩
  | num n => exact ⟨_, rfl, coerceCue_valid _⟩
  | str s => exact ⟨_, rfl, coerceCue_valid _⟩
  | list xs => exact ⟨_, rfl, coerceCue_valid _⟩

theorem analyze_haptic_valid (llm : LLMOracle) (st : VRState)
    (herr : st.error = none) :
    ∃ v, (analyze_and_instruct llm st).haptic_cue = some v ∧ isValidCue v := by
  unfold analyze_and_instruct
  rw [herr]
  simp only [Option.isSome_none, Bool.false_eq_true, if_false]
  cases st.current_image with
  | none => exact ⟨_, rfl, Or.inr (Or.inr rfl)⟩
  | some img =>
    cases invokeWithRetry llm with
    | fail msg => exact ⟨_, rfl, Or.inr (Or.inr rfl)⟩
    | ok content => exact setFromResult_haptic st _

/-- C7: for every model output (any JSON value or undecodable response —
`haptic_cue` absent, a non-string, or an arbitrary string), the pipeline's
haptic cue after `analyze_and_instruct` is one of `guide_to_target`,
`success_pulse`, `none`; the persisted record's `instruction.haptic_cue`
carries exactly that value, and so does the `/assist` success payload.
Coercion is silent — never surfaced as an error. -/
theorem haptic_cue_always_enumerated (llm : LLMOracle) (st : VRState)
    (ts sid : String) (herr : st.error = none) :
    isValidCue ((analyze_and_instruct llm st).haptic_cue.getD (Json.str "none"))
    ∧ instructionHapticCue (mkContextData (analyze_and_instruct llm st) ts)
        = some ((analyze_and_instruct llm st).haptic_cue.getD (Json.str "none"))
    ∧ (∀ steps tid hc,
        assistRouteOutcome sid (analyze_and_instruct llm st)
          = AssistOutcome.success sid steps tid hc → isValidCue hc) := by
  obtain ⟨v, hv, hvalid⟩ := analyze_haptic_valid llm st herr
  refine ⟨?_, ?_, ?_⟩
  · rw [hv]
    exact hvalid
  · simp [instructionHapticCue, mkContextData, Json.getField, getFieldList]
  · intro steps tid hc hsucc
    unfold assistRouteOutcome at hsucc
    cases herr' : (analyze_and_instruct llm st).error with
    | some e => rw [herr'] at hsucc; simp at hsucc
    | none =>
      rw [herr'] at hsucc
      simp only [AssistOutcome.success.injEq] at hsucc
      obtain ⟨-, -, -, h4⟩ := hsucc
      rw [← h4, hv]
      exact hvalid

/-- A model response carrying an out-of-range haptic cue, for the C7
witness. -/
def resultBadCue : Json :=
  Json.obj
    [("image_analysis", Json.str "ok"),
     ("instruction", Json.obj
       [("steps", Json.list [Json.str "Do the thing"]),
        ("target_id", Json.str "t1"),
        ("haptic_cue", Json.str "explode")])]

/-- An oracle answering immediately with `resultBadCue`. -/
def llmBadCue : LLMOracle := fun _ => LLMResult.ok (Except.ok resultBadCue)

/-- The initial state for the C7 witness. -/
def initC7 : VRState :=
  { current_image := some "img64", task_step := some "4",
    current_task := some "PSU_Install", session_id := some "sess-7" }

theorem haptic_cue_always_enumerated_witness :
    isValidCue ((analyze_and_instruct llmBadCue initC7).haptic_cue.getD
      (Json.str "none"))
    ∧ instructionHapticCue (mkContextData (analyze_and_instruct llmBadCue initC7) "t1")
        = some ((analyze_and_instruct llmBadCue initC7).haptic_cue.getD
          (Json.str "none"))
    ∧ (∀ steps tid hc,
        assistRouteOutcome "sess-7" (analyze_and_instruct llmBadCue initC7)
          = AssistOutcome.success "sess-7" steps tid hc → isValidCue hc) :=
  haptic_cue_always_enumerated llmBadCue initC7 "t1" "sess-7" rfl

/-! ## C2 — double inference failure during assist

The claim says the pipeline returns a degraded payload with empty
`instructionSteps` and an `error` field, rather than an error response.
`analyze_and_instruct` does absorb the re-raised exception and writes an
`error` entry into its state — but llm.py's `VRContextState` schema
declares no `error` channel, so LangGraph drops that entry at the node
boundary: `save_context` sees no error and persists a record whose
`instruction.steps` is the one-element fallback
`["System error. Please try again."]` and whose `error` field is JSON
`null`, the invoke result carries no `error` key, and the `/assist` route
takes its success path, answering 200 with the non-empty fallback step. -/

/-- An oracle whose every attempt raises. -/
def llmAlwaysFails : LLMOracle := fun _ => LLMResult.fail "boom"

/-- The initial state for the C2 counterexample. -/
def initC2 : VRState :=
  { current_image := some "img64", task_step := some "4",
    current_task := some "PSU_Install", gaze_vector := some (Json.obj []),
    session_id := some "sess-2" }

/-- C2 counterexample: with both attempts raising, the invoke result
carries no error (the schema drops it), the session file IS written — with
the non-empty fallback step list and a null `error` field — and the
`/assist` route returns a success payload whose `instruction_steps` is the
non-empty fallback list: both "instructionSteps is empty" and "an error
field recording the failure reason" fail on the program. -/
theorem assist_double_failure_counterexample :
    (workflowRun llmAlwaysFails 10 "t2" initC2 (fun _ => none)).1.error = none
    ∧ assistRouteOutcome "sess-2"
        (workflowRun llmAlwaysFails 10 "t2" initC2 (fun _ => none)).1
        = AssistOutcome.success "sess-2"
            (Json.list [Json.str "System error. Please try again."])
            (Json.str "") (Json.str "none")
    ∧ Json.list [Json.str "System error. Please try again."] ≠ Json.list []
    ∧ (workflowRun llmAlwaysFails 10 "t2" initC2 (fun _ => none)).2 "sess-2"
        = some (FileContent.validJson (mkContextData
            (dropUndeclared (analyze_and_instruct llmAlwaysFails
              (dropUndeclared initC2))) "t2"))
    ∧ instructionSteps (mkContextData
          (dropUndeclared (analyze_and_instruct llmAlwaysFails
            (dropUndeclared initC2))) "t2")
        = some (Json.list [Json.str "System error. Please try again."])
    ∧ (mkContextData (dropUndeclared (analyze_and_instruct llmAlwaysFails
          (dropUndeclared initC2))) "t2").getField "error" = some Json.null :=
  ⟨rfl, rfl, by simp, rfl, rfl, rfl⟩

/-- C2 (amended): if the inference call raises on both the initial attempt
and the single retry, the pipeline does not raise past the boundary — but
not as the claim says.  `analyze_and_instruct` records the error, yet the
`VRContextState` schema declares no `error` channel, so the entry is
dropped between nodes and from the invoke result: `save_context` persists a
record whose `instruction.steps` is the non-empty one-element fallback
`["System error. Please try again."]` and whose `error` field is null, and
the `/assist` route returns a 200 success payload with those
`instruction_steps`, `target_id` empty and `haptic_cue` `"none"` — no
error field reaches the caller and no error response is produced. -/
theorem assist_double_failure (llm : LLMOracle) (st : VRState)
    (m0 m1 : String) (mh : Nat) (ts sid : String) (store : Store)
    (h0 : llm 0 = LLMResult.fail m0) (h1 : llm 1 = LLMResult.fail m1)
    (himg : (st.current_image).isSome = true) :
    (workflowRun llm mh ts st store).1.error = none
    ∧ (workflowRun llm mh ts st store).1.instruction_text
        = some (Json.str "System error. Please try again.")
    ∧ (workflowRun llm mh ts st store).1.target_id = some (Json.str "")
    ∧ (workflowRun llm mh ts st store).1.haptic_cue = some (Json.str "none")
    ∧ (∃ rec, (workflowRun llm mh ts st store).2 (st.session_id.getD "unknown")
          = some (FileContent.validJson rec)
        ∧ instructionSteps rec
            = some (Json.list [Json.str "System error. Please try again."])
        ∧ rec.getField "error" = some Json.null)
    ∧ assistRouteOutcome sid (workflowRun llm mh ts st store).1
        = AssistOutcome.success sid
            (Json.list [Json.str "System error. Please try again."])
            (Json.str "") (Json.str "none") := by
  obtain ⟨img, himg'⟩ := Option.isSome_iff_exists.mp himg
  have hretry : invokeWithRetry llm = LLMResult.fail m1 := by
    unfold invokeWithRetry
    rw [h0, h1]
  have himg2 : (dropUndeclared st).current_image = some img := himg'
  have hs1 : dropUndeclared (analyze_and_instruct llm (dropUndeclared st))
      = { st with
          current_image := some img
          error := none
          image_analysis := some (Json.str ("Error: " ++ m1))
          instruction_text := some (Json.str "System error. Please try again.")
          target_id := some (Json.str "")
          haptic_cue := some (Json.str "none") } := by
    unfold analyze_and_instruct
    rw [himg2, hretry]
    rfl
  have hwf1 : (workflowRun llm mh ts st store).1
      = dropUndeclared (save_context mh
          { st with
            current_image := some img
            error := none
            image_analysis := some (Json.str ("Error: " ++ m1))
            instruction_text := some (Json.str "System error. Please try again.")
            target_id := some (Json.str "")
            haptic_cue := some (Json.str "none") } ts store).1 := by
    unfold workflowRun
    rw [hs1]
  have hwf2 : (workflowRun llm mh ts st store).2
      = (save_context mh
          { st with
            current_image := some img
            error := none
            image_analysis := some (Json.str ("Error: " ++ m1))
            instruction_text := some (Json.str "System error. Please try again.")
            target_id := some (Json.str "")
            haptic_cue := some (Json.str "none") } ts store).2 := by
    unfold workflowRun
    rw [hs1]
  refine ⟨?_, ?_, ?_, ?_, ?_, ?_⟩
  · rw [hwf1]
    rfl
  · rw [hwf1]
    rfl
  · rw [hwf1]
    rfl
  · rw [hwf1]
    rfl
  · rw [hwf2]
    exact ⟨mkContextData
        { st with
          current_image := some img
          error := none
          image_analysis := some (Json.str ("Error: " ++ m1))
          instruction_text := some (Json.str "System error. Please try again.")
          target_id := some (Json.str "")
          haptic_cue := some (Json.str "none") } ts,
      saveFile_self _ _ _, rfl, rfl⟩
  · rw [hwf1]
    rfl

/-- A two-attempt oracle with distinct messages, for the C2 witness. -/
def llmW2 : LLMOracle := fun n =>
  if n = 0 then LLMResult.fail "network down" else LLMResult.fail "quota exceeded"

theorem assist_double_failure_witness :
    (workflowRun llmW2 10 "t2" initC2 (fun _ => none)).1.error = none
    ∧ (workflowRun llmW2 10 "t2" initC2 (fun _ => none)).1.instruction_text
        = some (Json.str "System error. Please try again.")
    ∧ (workflowRun llmW2 10 "t2" initC2 (fun _ => none)).1.target_id
        = some (Json.str "")
    ∧ (workflowRun llmW2 10 "t2" initC2 (fun _ => none)).1.haptic_cue
        = some (Json.str "none")
    ∧ (∃ rec, (workflowRun llmW2 10 "t2" initC2 (fun _ => none)).2
          ((initC2.session_id).getD "unknown")
          = some (FileContent.validJson rec)
        ∧ instructionSteps rec
            = some (Json.list [Json.str "System error. Please try again."])
        ∧ rec.getField "error" = some Json.null)
    ∧ assistRouteOutcome "sess-2w"
        (workflowRun llmW2 10 "t2" initC2 (fun _ => none)).1
        = AssistOutcome.success "sess-2w"
            (Json.list [Json.str "System error. Please try again."])
            (Json.str "") (Json.str "none") :=
  assist_double_failure llmW2 initC2 "network down" "quota exceeded" 10 "t2"
    "sess-2w" (fun _ => none) rfl rfl rfl

/-! ## C10 — `sanitize_string`

The claim also asserts the result has no leading or trailing whitespace.
Stripping happens before the 256-character truncation, so a truncated
result can end in whitespace — the claim fails there; everything else
holds. -/

theorem head_dropWhile_false (p : Char → Bool) (l : List Char) (c : Char)
    (h : (l.dropWhile p).head? = some c) : p c = false := by
  induction l with
  | nil => simp [List.dropWhile] at h
  | cons a t ih =>
    rw [List.dropWhile_cons] at h
    by_cases ha : p a
    · rw [if_pos ha] at h
      exact ih h
    · rw [if_neg ha] at h
      simp only [List.head?_cons, Option.some.injEq] at h
      subst h
      exact Bool.eq_false_iff.mpr ha

theorem dropWhile_eq_self_of_head (p : Char → Bool) (l : List Char)
    (h : ∀ c, l.head? = some c → p c = false) : l.dropWhile p = l := by
  cases l with
  | nil => rfl
  | cons a t =>
    rw [List.dropWhile_cons, if_neg]
    rw [h a rfl]
    simp

theorem pyStrip_idem (l : List Char) : pyStrip (pyStrip l) = pyStrip l := by
  unfold pyStrip
  set p := isPySpace with hp
  set A := l.dropWhile p with hA
  set B := A.reverse.dropWhile p with hB
  have hBdrop : B.dropWhile p = B :=
    dropWhile_eq_self_of_head p B (fun c hc => head_dropWhile_false p A.reverse c (hB ▸ hc))
  have hBrevdrop : B.reverse.dropWhile p = B.reverse := by
    apply dropWhile_eq_self_of_head
    intro c hc
    rw [List.head?_reverse] at hc
    cases hBnil : B with
    | nil => rw [hBnil] at hc; simp at hc
    | cons b bt =>
      obtain ⟨t, ht⟩ := List.dropWhile_suffix (l := A.reverse) p
      have hlast : B.getLast? = A.reverse.getLast? := by
        rw [← ht, List.getLast?_append_of_ne_nil]
        rw [← hB, hBnil]
        simp
      rw [hBnil] at hlast hc
      rw [hc] at hlast
      rw [List.getLast?_reverse] at hlast
      exact head_dropWhile_false p l c (hA ▸ hlast.symm)
  rw [hBrevdrop, List.reverse_reverse, hBdrop]

theorem mem_pyStrip {c : Char} {l : List Char} (h : c ∈ pyStrip l) : c ∈ l := by
  unfold pyStrip at h
  rw [List.mem_reverse] at h
  have h1 := ((List.dropWhile_suffix _).sublist.subset) h
  rw [List.mem_reverse] at h1
  exact ((List.dropWhile_suffix _).sublist.subset) h1

theorem pyStrip_length_le (l : List Char) : (pyStrip l).length ≤ l.length := by
  unfold pyStrip
  calc ((l.dropWhile isPySpace).reverse.dropWhile isPySpace).reverse.length
      = ((l.dropWhile isPySpace).reverse.dropWhile isPySpace).length := by
        rw [List.length_reverse]
    _ ≤ (l.dropWhile isPySpace).reverse.length :=
        (List.dropWhile_suffix _).length_le
    _ = (l.dropWhile isPySpace).length := by rw [List.length_reverse]
    _ ≤ l.length := (List.dropWhile_suffix _).length_le

/-- C10 (amended): `sanitize_string` returns a string with no null bytes,
of length at most 256 (longer inputs are silently truncated); whitespace is
stripped before truncation, so a result that was truncated may end in
whitespace, but whenever no truncation occurs the result has no leading or
trailing whitespace; and inputs already free of null bytes, free of edge
whitespace, and of length at most 256 are returned unchanged. -/
theorem sanitize_string_spec :
    (∀ s c, c ∈ sanitize_string s → c ≠ '\x00')
    ∧ (∀ s, (sanitize_string s).length ≤ 256)
    ∧ (∀ s, (pyStrip (s.filter (fun c => !(c = '\x00')))).length ≤ 256 →
        pyStrip (sanitize_string s) = sanitize_string s)
    ∧ (∀ s, s.length ≤ 256 → (∀ c ∈ s, c ≠ '\x00') → pyStrip s = s →
        sanitize_string s = s) := by
  refine ⟨?_, ?_, ?_, ?_⟩
  · intro s c hc
    unfold sanitize_string at hc
    by_cases hs : s = []
    · rw [if_pos hs] at hc
      simp at hc
    · rw [if_neg hs] at hc
      simp only at hc
      have hmem : c ∈ pyStrip (s.filter (fun c => !(c = '\x00'))) := by
        by_cases hlen :
            (pyStrip (s.filter (fun c => !(c = '\x00')))).length > 256
        · rw [if_pos hlen] at hc
          exact List.mem_of_mem_take hc
        · rw [if_neg hlen] at hc
          exact hc
      have := List.mem_filter.mp (mem_pyStrip hmem)
      simpa using this.2
  · intro s
    unfold sanitize_string
    by_cases hs : s = []
    · rw [if_pos hs]
      simp
    · rw [if_neg hs]
      simp only
      by_cases hlen : (pyStrip (s.filter (fun c => !(c = '\x00')))).length > 256
      · rw [if_pos hlen]
        rw [List.length_take]
        omega
      · rw [if_neg hlen]
        omega
  · intro s hlen
    unfold sanitize_string
    by_cases hs : s = []
    · rw [if_pos hs]
      rfl
    · rw [if_neg hs]
      simp only
      rw [if_neg (by omega)]
      exact pyStrip_idem _
  · intro s hlen hnull hstrip
    unfold sanitize_string
    by_cases hs : s = []
    · rw [if_pos hs, hs]
    · rw [if_neg hs]
      simp only
      have hfilter : s.filter (fun c => !(c = '\x00')) = s :=
        List.filter_eq_self.mpr (fun a ha => by simpa using hnull a ha)
      rw [hfilter, hstrip, if_neg (by omega)]

theorem sanitize_string_spec_witness :
    (" hello\x00 world ".toList.length ≤ 256
      ∧ pyStrip "ok-input".toList = "ok-input".toList
      ∧ (∀ c ∈ "ok-input".toList, c ≠ '\x00'))
    ∧ (∀ c, c ∈ sanitize_string " hello\x00 world ".toList → c ≠ '\x00')
    ∧ (sanitize_string " hello\x00 world ".toList).length ≤ 256
    ∧ pyStrip (sanitize_string " hello\x00 world ".toList)
        = sanitize_string " hello\x00 world ".toList
    ∧ sanitize_string "ok-input".toList = "ok-input".toList :=
  ⟨⟨by decide, by decide, by decide⟩,
   fun c => sanitize_string_spec.1 _ c,
   sanitize_string_spec.2.1 _,
   sanitize_string_spec.2.2.1 _ (by decide),
   sanitize_string_spec.2.2.2 _ (by decide) (by decide) (by decide)⟩

/-- The C10 counterexample input: 255 letters, a space, then 44 more
letters — no null bytes, no edge whitespace, but longer than 256. -/
def cexInputC10 : List Char :=
  List.replicate 255 'a' ++ ' ' :: List.replicate 44 'b'

set_option maxRecDepth 4000 in
/-- C10 counterexample: sanitizing `cexInputC10` truncates after stripping,
leaving a result whose last character is a whitespace — the claim's
"no trailing whitespace" fails. -/
theorem sanitize_string_trailing_ws_counterexample :
    (∀ c ∈ cexInputC10, c ≠ '\x00')
    ∧ pyStrip cexInputC10 = cexInputC10
    ∧ (sanitize_string cexInputC10).getLast? = some ' '
    ∧ isPySpace ' ' = true := by
  refine ⟨by decide, by decide, by decide, rfl⟩

/-! ## C8 — responses with no numbered-list markers -/

/-- When no position of the text matches the numbered-list pattern, the
scan returns the whole text as the single fragment. -/
theorem splitNumberedAux_no_match (t : List Char) :
    ∀ (fuel : Nat) (acc : List Char), t.length < fuel →
    (∀ n ∈ List.range (t.length + 1), matchNumbered (List.drop n t) = none) →
    splitNumberedAux fuel t acc = [acc ++ t] := by
  induction t with
  | nil =>
    intro fuel acc hfuel h
    match fuel, hfuel with
    | fuel + 1, _ =>
      simp [splitNumberedAux, matchNumbered]
  | cons c rest ih =>
    intro fuel acc hfuel h
    match fuel, hfuel with
    | fuel + 1, hfuel =>
      have h0 : matchNumbered (c :: rest) = none := by
        have := h 0 (by simp)
        simpa using this
      show splitNumberedAux (fuel + 1) (c :: rest) acc = [acc ++ (c :: rest)]
      rw [splitNumberedAux]
      rw [h0]
      have hrest : ∀ n ∈ List.range (rest.length + 1),
          matchNumbered (List.drop n rest) = none := by
        intro n hn
        have hn' : n + 1 ∈ List.range ((c :: rest).length + 1) := by
          simp at hn ⊢
          omega
        have := h (n + 1) hn'
        simpa using this
      rw [ih fuel (acc ++ [c]) (by simp at hfuel; omega) hrest]
      simp

/-- C8: for a response in which the numbered-list pattern matches at no
position, the `/ask` parser yields a single-element sequence holding the
stripped input (including the degenerate all-whitespace case, where the
single element is the empty string). -/
theorem parse_answer_no_markers (t : List Char)
    (h : ∀ n ∈ List.range (t.length + 1), matchNumbered (List.drop n t) = none) :
    parseAnswerSteps t = [pyStrip t] := by
  have hsplit : splitNumbered t = [t] := by
    unfold splitNumbered
    rw [splitNumberedAux_no_match t (t.length + 1) [] (by omega) h]
    rfl
  unfold parseAnswerSteps
  rw [hsplit]
  by_cases he : (pyStrip t).isEmpty
  · simp [he]
  · simp [he]

theorem parse_answer_no_markers_witness :
    parseAnswerSteps "Just do the thing".toList
      = [pyStrip "Just do the thing".toList] :=
  parse_answer_no_markers _ (by decide)

/-! ## C1 — parsing valid numbered-list responses

The route's regex requires a literal newline before each item number, so a
response beginning directly with `"1. "` keeps that prefix on its first
fragment: the claim's example `"1. Do A\n2. Do B\n3. Do C"` parses to
`["1. Do A", "Do B", "Do C"]`, not `["Do A", "Do B", "Do C"]`.  When every
item — the first included — sits after a line boundary, the numbering is
removed exactly as claimed. -/

theorem digitChar10_digit (n : Nat) : isDigitChar (digitChar10 n) = true := by
  match n with
  | 0 => rfl
  | 1 => rfl
  | 2 => rfl
  | 3 => rfl
  | 4 => rfl
  | 5 => rfl
  | 6 => rfl
  | 7 => rfl
  | 8 => rfl
  | m + 9 => rfl

theorem natToDigitsAux_ne_nil (fuel n : Nat) : natToDigitsAux fuel n ≠ [] := by
  cases fuel with
  | zero => simp [natToDigitsAux]
  | succ fuel =>
    unfold natToDigitsAux
    by_cases h : n < 10
    · simp [h]
    · simp [h]

theorem natToDigitsAux_digits (fuel : Nat) :
    ∀ (n : Nat) (c : Char), c ∈ natToDigitsAux fuel n → isDigitChar c = true := by
  induction fuel with
  | zero =>
    intro n c hc
    simp [natToDigitsAux] at hc
    rw [hc]
    exact digitChar10_digit n
  | succ fuel ih =>
    intro n c hc
    unfold natToDigitsAux at hc
    by_cases h : n < 10
    · rw [if_pos h] at hc
      simp at hc
      rw [hc]
      exact digitChar10_digit n
    · rw [if_neg h] at hc
      rcases List.mem_append.mp hc with hl | hr
      · exact ih _ _ hl
      · simp at hr
        rw [hr]
        exact digitChar10_digit _

theorem natToDigits_ne_nil (n : Nat) : natToDigits n ≠ [] :=
  natToDigitsAux_ne_nil n n

theorem natToDigits_digits (n : Nat) (c : Char) (hc : c ∈ natToDigits n) :
    isDigitChar c = true :=
  natToDigitsAux_digits n n c hc

theorem digit_not_space (c : Char) (h : isDigitChar c = true) :
    isPySpace c = false := by
  have h1 : c ≠ ' ' := by rintro rfl; exact absurd h (by decide)
  have h2 : c ≠ '\t' := by rintro rfl; exact absurd h (by decide)
  have h3 : c ≠ '\n' := by rintro rfl; exact absurd h (by decide)
  have h4 : c ≠ '\x0d' := by rintro rfl; exact absurd h (by decide)
  have h5 : c ≠ '\x0b' := by rintro rfl; exact absurd h (by decide)
  have h6 : c ≠ '\x0c' := by rintro rfl; exact absurd h (by decide)
  unfold isPySpace
  simp [h1, h2, h3, h4, h5, h6]

theorem takeWhile_append_all (p : Char → Bool) (l r : List Char)
    (h : ∀ c ∈ l, p c = true) : (l ++ r).takeWhile p = l ++ r.takeWhile p := by
  induction l with
  | nil => simp
  | cons a t ih =>
    have ha := h a (by simp)
    simp only [List.cons_append, List.takeWhile_cons, ha, if_true]
    rw [ih (fun c hc => h c (by simp [hc]))]

theorem dropWhile_append_all (p : Char → Bool) (l r : List Char)
    (h : ∀ c ∈ l, p c = true) : (l ++ r).dropWhile p = r.dropWhile p := by
  induction l with
  | nil => simp
  | cons a t ih =>
    have ha := h a (by simp)
    simp only [List.cons_append, List.dropWhile_cons, ha, if_true]
    exact ih (fun c hc => h c (by simp [hc]))

theorem matchNumbered_not_newline {c : Char} (l : List Char) (h : c ≠ '\n') :
    matchNumbered (c :: l) = none := by
  unfold matchNumbered
  split
  · rename_i heq
    exact absurd (List.cons.inj heq).1 h
  · rfl

/-- Scanning over a newline-free block never finds a split point: the scan
just moves the block into the accumulated fragment. -/
theorem splitNumberedAux_skip (s : List Char) :
    ∀ (r acc : List Char) (fuel : Nat), '\n' ∉ s → s.length + r.length < fuel →
    splitNumberedAux fuel (s ++ r) acc
      = splitNumberedAux (fuel - s.length) r (acc ++ s) := by
  induction s with
  | nil =>
    intro r acc fuel _ _
    simp
  | cons c t ih =>
    intro r acc fuel hnl hfuel
    match fuel, hfuel with
    | fuel + 1, hfuel =>
      have hc : c ≠ '\n' := fun hcc => hnl (by simp [hcc])
      show splitNumberedAux (fuel + 1) (c :: (t ++ r)) acc = _
      rw [splitNumberedAux, matchNumbered_not_newline _ hc]
      rw [ih r (acc ++ [c]) fuel (fun ht => hnl (by simp [ht])) (by simp at hfuel; omega)]
      simp

/-- The numbered-list pattern matches exactly one generated item header
`"\n<digits>. "` and consumes it, provided the step text starts with a
non-whitespace character. -/
theorem matchNumbered_item (i : Nat) (s r : List Char) (c : Char) (t : List Char)
    (hs : s = c :: t) (hc : isPySpace c = false) :
    matchNumbered ('\n' :: (natToDigits i ++ '.' :: ' ' :: (s ++ r)))
      = some (s ++ r) := by
  obtain ⟨d, ds, hd⟩ : ∃ d ds, natToDigits i = d :: ds := by
    cases hnd : natToDigits i with
    | nil => exact absurd hnd (natToDigits_ne_nil i)
    | cons d ds => exact ⟨d, ds, rfl⟩
  have hdigits : ∀ x ∈ natToDigits i, isDigitChar x = true := natToDigits_digits i
  have hrest1 : (natToDigits i ++ '.' :: ' ' :: (s ++ r)).dropWhile isPySpace
      = natToDigits i ++ '.' :: ' ' :: (s ++ r) := by
    apply dropWhile_eq_self_of_head
    intro x hx
    rw [hd] at hx
    simp only [List.cons_append, List.head?_cons, Option.some.injEq] at hx
    rw [← hx]
    exact digit_not_space d (hdigits d (by rw [hd]; simp))
  have htake : (natToDigits i ++ '.' :: ' ' :: (s ++ r)).takeWhile isDigitChar
      = natToDigits i := by
    rw [takeWhile_append_all _ _ _ hdigits]
    rw [List.takeWhile_cons, if_neg (by decide)]
    simp
  have hdrop : (natToDigits i ++ '.' :: ' ' :: (s ++ r)).dropWhile isDigitChar
      = '.' :: ' ' :: (s ++ r) := by
    rw [dropWhile_append_all _ _ _ hdigits]
    rw [List.dropWhile_cons, if_neg (by decide)]
  show (let rest1 := (natToDigits i ++ '.' :: ' ' :: (s ++ r)).dropWhile isPySpace
        let digits := rest1.takeWhile isDigitChar
        let rest2 := rest1.dropWhile isDigitChar
        if digits.isEmpty then none
        else
          match rest2 with
          | '.' :: rest3 =>
              if (rest3.takeWhile isPySpace).isEmpty then none
              else some (rest3.dropWhile isPySpace)
          | _ => none) = some (s ++ r)
  simp only [hrest1, htake, hdrop]
  rw [if_neg (by simp [List.isEmpty_iff, natToDigits_ne_nil i])]
  have hsp : (' ' :: (s ++ r)).takeWhile isPySpace
      = ' ' :: (s ++ r).takeWhile isPySpace := by
    simp [List.takeWhile_cons, isPySpace]
  rw [hsp]
  rw [if_neg (by simp)]
  have hdropsp : (' ' :: (s ++ r)).dropWhile isPySpace = s ++ r := by
    rw [List.dropWhile_cons, if_pos (by simp [isPySpace])]
    apply dropWhile_eq_self_of_head
    intro x hx
    rw [hs] at hx
    simp only [List.cons_append, List.head?_cons, Option.some.injEq] at hx
    subst hx
    exact hc
  rw [hdropsp]

/-- Splitting a generated numbered list yields an empty leading fragment
followed by exactly the step texts. -/
theorem splitNumberedAux_numbered (steps : List (List Char)) :
    ∀ (i : Nat) (acc : List Char) (fuel : Nat),
    (∀ s ∈ steps, goodStep s) → (numberedFrom i steps).length < fuel →
    splitNumberedAux fuel (numberedFrom i steps) acc = acc :: steps := by
  induction steps with
  | nil =>
    intro i acc fuel _ hfuel
    match fuel, hfuel with
    | fuel + 1, _ => simp [numberedFrom, splitNumberedAux, matchNumbered]
  | cons s rest ih =>
    intro i acc fuel hgood hfuel
    have hgs : goodStep s := hgood s (by simp)
    obtain ⟨c, t, hct⟩ : ∃ c t, s = c :: t := by
      cases hs : s with
      | nil => exact absurd hs hgs.1
      | cons c t => exact ⟨c, t, rfl⟩
    have hc : isPySpace c = false := by
      by_contra hcon
      rw [Bool.not_eq_false] at hcon
      have hlen1 : (pyStrip s).length ≤ (s.dropWhile isPySpace).length := by
        unfold pyStrip
        rw [List.length_reverse]
        calc ((s.dropWhile isPySpace).reverse.dropWhile isPySpace).length
            ≤ (s.dropWhile isPySpace).reverse.length :=
              (List.dropWhile_suffix _).length_le
          _ = (s.dropWhile isPySpace).length := List.length_reverse _
      have hlen2 : (s.dropWhile isPySpace).length ≤ t.length := by
        rw [hct, List.dropWhile_cons, if_pos hcon]
        exact (List.dropWhile_suffix _).length_le
      have hss : (pyStrip s).length = s.length := by rw [hgs.2.1]
      have hsl : s.length = t.length + 1 := by rw [hct]; simp
      omega
    have hdigpos : 0 < (natToDigits i).length :=
      List.length_pos.mpr (natToDigits_ne_nil i)
    rw [show numberedFrom i (s :: rest)
        = '\n' :: (natToDigits i ++ '.' :: ' ' :: (s ++ numberedFrom (i + 1) rest))
        from rfl] at hfuel ⊢
    simp only [List.length_cons, List.length_append] at hfuel
    match fuel, hfuel with
    | fuel + 1, hfuel =>
      rw [splitNumberedAux, matchNumbered_item i s _ c t hct hc]
      show acc :: splitNumberedAux fuel (s ++ numberedFrom (i + 1) rest) []
          = acc :: s :: rest
      rw [splitNumberedAux_skip s (numberedFrom (i + 1) rest) [] fuel hgs.2.2
        (by simp at hfuel; omega)]
      rw [List.nil_append]
      rw [ih (i + 1) s (fuel - s.length) (fun x hx => hgood x (by simp [hx]))
        (by simp at hfuel; omega)]

/-- C1 (amended): the regex splits at a newline followed by digits, a
period and whitespace.  For numbered-list text in which every item — the
first included — is preceded by a line boundary (`numberedText`, i.e.
`"\n1. s₁\n2. s₂…"`), the parser yields exactly the step texts with the
numbering removed: the empty leading fragment produced by the first match
is dropped, fragments are trimmed, and empty ones discarded.  When the
text instead begins directly with `"1. "` (no preceding newline, as in the
claim's example) the first fragment keeps its `"1. "` prefix. -/
theorem parse_numbered_list (steps : List (List Char)) (hne : steps ≠ [])
    (hgood : ∀ s ∈ steps, goodStep s) :
    parseAnswerSteps (numberedText steps) = steps := by
  have hsplit : splitNumbered (numberedText steps) = [] :: steps := by
    unfold splitNumbered numberedText
    exact splitNumberedAux_numbered steps 1 [] _ hgood (by omega)
  unfold parseAnswerSteps
  rw [hsplit]
  have hmap : steps.map pyStrip = steps := by
    rw [List.map_congr_left (fun s hs => (hgood s hs).2.1)]
    simp
  have hfil : steps.filter (fun s => !s.isEmpty) = steps :=
    List.filter_eq_self.mpr
      (fun s hs => by simp [List.isEmpty_iff, (hgood s hs).1])
  simp only [pyStrip, List.dropWhile, List.reverse_nil, List.isEmpty_nil,
    if_true, hmap, hfil]
  rw [if_neg (by simp [List.isEmpty_iff, hne])]

/-- The step texts of the C1 witness. -/
def stepsW1 : List (List Char) := ["Do A".toList, "Do B".toList, "Do C".toList]

theorem parse_numbered_list_witness :
    numberedText stepsW1 = "\n1. Do A\n2. Do B\n3. Do C".toList
    ∧ parseAnswerSteps (numberedText stepsW1) = stepsW1 :=
  ⟨by decide, parse_numbered_list stepsW1 (by decide) (by
    intro s hs
    simp only [stepsW1, List.mem_cons, List.not_mem_nil, or_false] at hs
    rcases hs with rfl | rfl | rfl
    · exact ⟨by decide, by decide, by decide⟩
    · exact ⟨by decide, by decide, by decide⟩
    · exact ⟨by decide, by decide, by decide⟩)⟩

/-- C1 counterexample: on the claim's own example, which begins directly
with `"1. "`, the parser keeps the `"1. "` prefix on the first step — it
does not yield `["Do A", "Do B", "Do C"]`. -/
theorem parse_numbered_list_counterexample :
    parseAnswerSteps "1. Do A\n2. Do B\n3. Do C".toList
        = ["1. Do A".toList, "Do B".toList, "Do C".toList]
    ∧ parseAnswerSteps "1. Do A\n2. Do B\n3. Do C".toList
        ≠ ["Do A".toList, "Do B".toList, "Do C".toList] := by
  constructor
  · decide
  · decide

/-! ## C3 — `follow_up_qa` growth

Follow-up calls only ever append to `follow_up_qa`.  But an assist run's
`save_context` builds a fresh `context_data` record with no `follow_up_qa`
field at all and overwrites the session file with it, discarding any
previously stored entries — so append-only does not hold over sequences
that include assist runs, only over follow-up runs. -/

/-- Setting `follow_up_qa` preserves the required fields. -/
theorem hasRequiredFields_set_qa (fields : List (String × Json)) (v : Json)
    (h : hasRequiredFields (Json.obj fields) = true) :
    hasRequiredFields ((Json.obj fields).setField "follow_up_qa" v) = true := by
  have hall := requiredAll_of_hasRequiredFields h
  show hasRequiredFields (Json.obj (setFieldList fields "follow_up_qa" v)) = true
  unfold hasRequiredFields
  rw [Bool.and_eq_true]
  refine ⟨rfl, ?_⟩
  rw [List.all_eq_true]
  intro f hf
  have hne : f ≠ "follow_up_qa" := by
    have hcases : f = "session_id" ∨ f = "task" ∨ f = "step"
        ∨ f = "image_analysis" ∨ f = "instruction" := by
      simpa [requiredFields] using hf
    rcases hcases with rfl | rfl | rfl | rfl | rfl <;> decide
  show (getFieldList (setFieldList fields "follow_up_qa" v) f).isSome = true
  rw [getFieldList_setFieldList_ne fields "follow_up_qa" f v hne]
  exact hall f hf

/-- The store returned by a successful follow-up call: the record gains the
new entry at the end of `follow_up_qa`. -/
theorem askRoute_store (store : Store) (sid q ts : String) (c : List Char)
    (fields : List (String × Json))
    (hst : store (sanitizeStr sid)
      = some (FileContent.validJson (Json.obj fields)))
    (hreq : hasRequiredFields (Json.obj fields) = true) :
    (∀ xs, (Json.obj fields).getField "follow_up_qa" = some (Json.list xs) →
      (askRoute store sid q ts (Except.ok c)).2
        = saveFile (sanitizeStr sid)
            ((Json.obj fields).setField "follow_up_qa"
              (Json.list (xs ++ [mkQaEntry ts (sanitizeStr q) (parseAnswerSteps c)])))
            store)
    ∧ ((Json.obj fields).getField "follow_up_qa" = none →
      (askRoute store sid q ts (Except.ok c)).2
        = saveFile (sanitizeStr sid)
            ((Json.obj fields).setField "follow_up_qa"
              (Json.list [mkQaEntry ts (sanitizeStr q) (parseAnswerSteps c)]))
            store) := by
  have hload : load_session_context (sanitizeStr sid) store
      = Except.ok (some (Json.obj fields)) := load_of_valid hst hreq
  constructor
  · intro xs hqa
    unfold askRoute
    simp only [hload, appendFollowUp, hqa]
  · intro hqa
    unfold askRoute
    simp only [hload, appendFollowUp, hqa]

/-- C3 (amended): follow-up operations are append-only on `follow_up_qa` —
appending an entry maps a stored list `xs` to `xs ++ [entry]` and an absent
field to the one-entry list, so after two follow-up calls on a session
whose record lacked the field the stored record has exactly the two entries
in call order.  An assist run, however, persists a fresh record carrying no
`follow_up_qa` field at all, discarding previously stored entries; the
append-only property holds over follow-up runs only. -/
theorem follow_up_qa_append_only :
    (∀ j entry xs, j.getField "follow_up_qa" = some (Json.list xs) →
      ∃ j', appendFollowUp j entry = some j'
        ∧ j'.getField "follow_up_qa" = some (Json.list (xs ++ [entry])))
    ∧ (∀ fields entry,
        (Json.obj fields).getField "follow_up_qa" = none →
      ∃ j', appendFollowUp (Json.obj fields) entry = some j'
        ∧ j'.getField "follow_up_qa" = some (Json.list [entry]))
    ∧ (∀ st ts, (mkContextData st ts).getField "follow_up_qa" = none)
    ∧ (∀ (store : Store) (sid q1 q2 ts1 ts2 : String) (c1 c2 : List Char)
        (fields : List (String × Json)),
      store (sanitizeStr sid) = some (FileContent.validJson (Json.obj fields)) →
      hasRequiredFields (Json.obj fields) = true →
      (Json.obj fields).getField "follow_up_qa" = none →
      ∃ ctx2 : Json,
        (askRoute (askRoute store sid q1 ts1 (Except.ok c1)).2 sid q2 ts2
            (Except.ok c2)).2 (sanitizeStr sid)
          = some (FileContent.validJson ctx2)
        ∧ ctx2.getField "follow_up_qa" = some (Json.list
            [mkQaEntry ts1 (sanitizeStr q1) (parseAnswerSteps c1),
             mkQaEntry ts2 (sanitizeStr q2) (parseAnswerSteps c2)])) := by
  refine ⟨?_, ?_, ?_, ?_⟩
  · intro j entry xs hqa
    obtain ⟨fields, rfl⟩ : ∃ fields, j = Json.obj fields := by
      apply obj_of_getField_isSome
      rw [hqa]
      rfl
    refine ⟨(Json.obj fields).setField "follow_up_qa" (Json.list (xs ++ [entry])),
      ?_, ?_⟩
    · unfold appendFollowUp
      rw [hqa]
    · exact getField_setField_self fields _ _
  · intro fields entry hqa
    refine ⟨(Json.obj fields).setField "follow_up_qa" (Json.list [entry]), ?_, ?_⟩
    · unfold appendFollowUp
      rw [hqa]
    · exact getField_setField_self fields _ _
  · intro st ts
    rfl
  · intro store sid q1 q2 ts1 ts2 c1 c2 fields hst hreq hqa
    have e1def : True := trivial
    have hstep1 : (askRoute store sid q1 ts1 (Except.ok c1)).2
        = saveFile (sanitizeStr sid)
            ((Json.obj fields).setField "follow_up_qa"
              (Json.list [mkQaEntry ts1 (sanitizeStr q1) (parseAnswerSteps c1)]))
            store :=
      (askRoute_store store sid q1 ts1 c1 fields hst hreq).2 hqa
    have hctx1obj : (Json.obj fields).setField "follow_up_qa"
        (Json.list [mkQaEntry ts1 (sanitizeStr q1) (parseAnswerSteps c1)])
        = Json.obj (setFieldList fields "follow_up_qa"
            (Json.list [mkQaEntry ts1 (sanitizeStr q1) (parseAnswerSteps c1)])) := rfl
    have hreq1 := hasRequiredFields_set_qa fields
      (Json.list [mkQaEntry ts1 (sanitizeStr q1) (parseAnswerSteps c1)]) hreq
    rw [hctx1obj] at hreq1
    have hst1 : (askRoute store sid q1 ts1 (Except.ok c1)).2 (sanitizeStr sid)
        = some (FileContent.validJson (Json.obj (setFieldList fields "follow_up_qa"
            (Json.list [mkQaEntry ts1 (sanitizeStr q1) (parseAnswerSteps c1)])))) := by
      rw [hstep1, hctx1obj]
      exact saveFile_self _ _ _
    have hqa1 : (Json.obj (setFieldList fields "follow_up_qa"
        (Json.list [mkQaEntry ts1 (sanitizeStr q1) (parseAnswerSteps c1)]))).getField
          "follow_up_qa"
        = some (Json.list [mkQaEntry ts1 (sanitizeStr q1) (parseAnswerSteps c1)]) :=
      getField_setField_self fields _ _
    have hstep2 := (askRoute_store (askRoute store sid q1 ts1 (Except.ok c1)).2 sid
      q2 ts2 c2 _ hst1 hreq1).1 _ hqa1
    refine ⟨(Json.obj (setFieldList fields "follow_up_qa"
        (Json.list [mkQaEntry ts1 (sanitizeStr q1) (parseAnswerSteps c1)]))).setField
          "follow_up_qa"
          (Json.list ([mkQaEntry ts1 (sanitizeStr q1) (parseAnswerSteps c1)]
            ++ [mkQaEntry ts2 (sanitizeStr q2) (parseAnswerSteps c2)])), ?_, ?_⟩
    · rw [hstep2]
      exact saveFile_self _ _ _
    · rw [getField_setField_self]
      rfl

/-- A prior record with one follow-up entry, for the C3 counterexample. -/
def qaEntryC3 : Json :=
  Json.obj [("timestamp", Json.str "t1"), ("question", Json.str "why?"),
            ("answer_steps", Json.list [Json.str "Because."])]

/-- The stored record before the assist run, for the C3 counterexample. -/
def recC3 : Json :=
  Json.obj
    [("session_id", Json.str "sess-3"),
     ("task", Json.str "PSU_Install"),
     ("step", Json.str "4"),
     ("image_analysis", Json.str "analysis"),
     ("instruction", Json.obj [("steps", Json.list [Json.str "Do it"])]),
     ("follow_up_qa", Json.list [qaEntryC3])]

/-- The workflow state of a later assist run on the same session. -/
def stC3 : VRState :=
  { current_image := some "img64", task_step := some "5",
    current_task := some "PSU_Install", session_id := some "sess-3",
    image_analysis := some (Json.str "a2"),
    instruction_text := some (Json.list [Json.str "Next step"]),
    target_id := some (Json.str ""), haptic_cue := some (Json.str "none") }

/-- C3 counterexample: the stored record holds one `follow_up_qa` entry;
an assist run's `save_context` then overwrites the session file with a
fresh record that carries no `follow_up_qa` field — the stored entry is
removed, so `follow_up_qa` does not only grow over sequences containing
assist runs. -/
theorem follow_up_qa_wiped_by_assist_counterexample :
    recC3.getField "follow_up_qa" = some (Json.list [qaEntryC3])
    ∧ (save_context 10 stC3 "t2"
        (saveFile "sess-3" recC3 (fun _ => none))).2 "sess-3"
        = some (FileContent.validJson (mkContextData stC3 "t2"))
    ∧ (mkContextData stC3 "t2").getField "follow_up_qa" = none :=
  ⟨rfl, rfl, rfl⟩

/-- The store for the C3 witness: one fresh assist record, no follow-ups
yet. -/
def recC3w : Json :=
  Json.obj
    [("session_id", Json.str "sess-3w"),
     ("task", Json.str "PSU_Install"),
     ("step", Json.str "4"),
     ("image_analysis", Json.str "analysis"),
     ("instruction", Json.obj [("steps", Json.list [Json.str "Do it"])])]

/-- The field list of `recC3w`. -/
def fieldsC3w : List (String × Json) :=
  [("session_id", Json.str "sess-3w"),
   ("task", Json.str "PSU_Install"),
   ("step", Json.str "4"),
   ("image_analysis", Json.str "analysis"),
   ("instruction", Json.obj [("steps", Json.list [Json.str "Do it"])])]

theorem follow_up_qa_append_only_witness :
    (∃ j', appendFollowUp recC5 qaEntryC3 = some j'
      ∧ j'.getField "follow_up_qa" = some (Json.list
          ([Json.obj [("timestamp", Json.str "t1"),
                      ("question", Json.str "why?"),
                      ("answer_steps", Json.list [Json.str "Because."])]]
            ++ [qaEntryC3])))
    ∧ (∃ j', appendFollowUp (Json.obj fieldsC3w) qaEntryC3 = some j'
      ∧ j'.getField "follow_up_qa" = some (Json.list [qaEntryC3]))
    ∧ (mkContextData stC3 "t9").getField "follow_up_qa" = none
    ∧ (∃ ctx2 : Json,
        (askRoute (askRoute (saveFile "sess-3w" (Json.obj fieldsC3w)
              (fun _ => none)) "sess-3w" "q one" "t3"
              (Except.ok ("1. A".toList))).2 "sess-3w" "q two" "t4"
            (Except.ok ("2. B".toList))).2 (sanitizeStr "sess-3w")
          = some (FileContent.validJson ctx2)
        ∧ ctx2.getField "follow_up_qa" = some (Json.list
            [mkQaEntry "t3" (sanitizeStr "q one") (parseAnswerSteps ("1. A".toList)),
             mkQaEntry "t4" (sanitizeStr "q two")
               (parseAnswerSteps ("2. B".toList))])) :=
  ⟨follow_up_qa_append_only.1 recC5 qaEntryC3 _ rfl,
   follow_up_qa_append_only.2.1 fieldsC3w qaEntryC3 rfl,
   follow_up_qa_append_only.2.2.1 stC3 "t9",
   follow_up_qa_append_only.2.2.2 _ "sess-3w" "q one" "q two" "t3" "t4" _ _
     fieldsC3w (by rfl) rfl rfl⟩

end Lucid
